import Mathlib

/-!
Verification of the financial core of `immoinvest_app.py` (gestion-Immo):
loan-payment computation (`mensualite_credit`), amortization schedule
generation (`tableau_amortissement`), and the multi-property, multi-year
projection/aggregation/taxation pipeline (`_project_with_scenario`).

The Python code computes with IEEE floats; the embedding works over `ℚ`
(exact arithmetic), which is the reading the specification itself adopts
("exactly under exact arithmetic, within floating-point tolerance
otherwise"). Durations are `ℤ` (the code applies `int(...)` to them),
month indices are `ℕ`.
-/

namespace ImmoInvest

/-- One row of the amortization table, mirroring the columns
`month_index, year, month, payment, interest, principal, balance`
of the DataFrame built by `tableau_amortissement`. -/
structure Row where
  month_index : ℕ
  year : ℕ
  month : ℕ
  payment : ℚ
  interest : ℚ
  principal : ℚ
  balance : ℚ
  deriving Repr, DecidableEq, Inhabited

/-- `mensualite_credit(capital, taux_annuel, duree_annees)`:
`n = duree*12`; `r = taux_annuel/12`; returns `0` if `n <= 0`,
`capital/n` if `|r| < 1e-12`, else `capital * (r / (1 - (1+r)^-n))`. -/
def mensualite_credit (capital taux_annuel : ℚ) (duree_annees : ℤ) : ℚ :=
  let n : ℤ := duree_annees * 12
  let taux_mensuel : ℚ := taux_annuel / 12
  if n ≤ 0 then 0
  else if |taux_mensuel| < 1 / 10 ^ 12 then capital / (n : ℚ)
  else capital * (taux_mensuel / (1 - (1 + taux_mensuel) ^ (-n)))

/-- The loop body of `tableau_amortissement`: months `i, i+1, ...` for `k`
remaining iterations, carrying the running balance.  Each iteration computes
`interest = balance*r`, `principal = max(m - interest, 0)`,
`balance = max(0, balance - principal)`, `year = (i-1)/12 + 1`,
`month = (i-1)%12 + 1` and appends the row. -/
def amortAux (r m : ℚ) : ℕ → ℕ → ℚ → List Row
  | 0, _, _ => []
  | k + 1, i, balance =>
    let interest := balance * r
    let principal := max (m - interest) 0
    let balance2 := max 0 (balance - principal)
    { month_index := i, year := (i - 1) / 12 + 1, month := (i - 1) % 12 + 1,
      payment := m, interest := interest, principal := principal,
      balance := balance2 } :: amortAux r m k (i + 1) balance2

/-- `tableau_amortissement(capital, taux_annuel, duree_annees)`:
empty for `n = duree*12 <= 0`, otherwise the `n` rows produced by the
monthly recurrence starting from `balance = capital`, with payment
`mensualite_credit(capital, taux_annuel, duree_annees)`. -/
def tableau_amortissement (capital taux_annuel : ℚ) (duree_annees : ℤ) : List Row :=
  let n : ℤ := duree_annees * 12
  if n ≤ 0 then []
  else
    let r : ℚ := taux_annuel / 12
    let m : ℚ := mensualite_credit capital taux_annuel duree_annees
    amortAux r m n.toNat 1 capital

/-- The five charge lines of a property
(`assurance, taxe_fonciere, copro, assurance_emprunteur, autres`). -/
structure Charges where
  assurance : ℚ
  taxe_fonciere : ℚ
  copro : ℚ
  assurance_emprunteur : ℚ
  autres : ℚ
  deriving Repr, DecidableEq

/-- A property record (`bien` dict): name, purchase price, loan principal,
loan duration (years), loan rate, year-1 annual rent, charge bases. -/
structure Bien where
  nom : String
  prix : ℚ
  emprunt : ℚ
  duree : ℤ
  taux : ℚ
  loyer : ℚ
  charges : Charges
  deriving Repr, DecidableEq

/-- `bien["mensualite"]`, computed at creation (line 204 of the source). -/
def Bien.mensualite (b : Bien) : ℚ :=
  mensualite_credit b.emprunt b.taux b.duree

/-- `bien["amort"]`, computed at creation (line 205 of the source). -/
def Bien.amort (b : Bien) : List Row :=
  tableau_amortissement b.emprunt b.taux b.duree

/-- Scenario hypotheses (`HypScenario`): rent revaluation, the five
charge-specific indexation rates, marginal tax rate `tmi`, social levy
rate `ps`, projection horizon in years. -/
structure HypScenario where
  revalo_loyers : ℚ
  idx_assurance : ℚ
  idx_copro : ℚ
  idx_taxe : ℚ
  idx_assu_empr : ℚ
  idx_autres : ℚ
  tmi : ℚ
  ps : ℚ
  duree_projection : ℤ
  deriving Repr, DecidableEq

/-- `df_am.groupby("year")["interest"].sum()` looked up at `y` with default
`0.0`: the sum of `interest` over the rows whose `year` equals `y`. -/
def interetsParAn (rows : List Row) (y : ℕ) : ℚ :=
  ((rows.filter fun row => row.year == y).map Row.interest).sum

/-- Compounding at an indexation rate: `base * (1 + idx) ** (year - 1)`
(lines 314-319 of the source). -/
def indexe (base idx : ℚ) (year : ℕ) : ℚ :=
  base * (1 + idx) ^ (year - 1)

/-- `annees = list(range(1, int(hyp.duree_projection) + 1))`. -/
def annees (hyp : HypScenario) : List ℕ :=
  (List.range hyp.duree_projection.toNat).map (· + 1)

/-- The cash-flow of property `b` in projected year `year` (body of the
inner loop, line 328): rent minus non-tax charges minus property tax minus
the annual annuity (`mensualite*12` while the loan runs, `0` after). -/
def cashflowOfYear (b : Bien) (hyp : HypScenario) (year : ℕ) : ℚ :=
  let loy := indexe b.loyer hyp.revalo_loyers year
  let ass := indexe b.charges.assurance hyp.idx_assurance year
  let copro := indexe b.charges.copro hyp.idx_copro year
  let taxe := indexe b.charges.taxe_fonciere hyp.idx_taxe year
  let assu_empr := indexe b.charges.assurance_emprunteur hyp.idx_assu_empr year
  let autres := indexe b.charges.autres hyp.idx_autres year
  let charges_tot := ass + copro + assu_empr + autres
  let annuite := if (year : ℤ) ≤ b.duree then b.mensualite * 12 else 0
  loy - charges_tot - taxe - annuite

/-- The taxable income of property `b` in projected year `year` (line 325):
rent minus non-tax charges minus property tax minus the loan interest of
that year (`0` once the loan duration is exceeded). -/
def imposableOfYear (b : Bien) (hyp : HypScenario) (year : ℕ) : ℚ :=
  let loy := indexe b.loyer hyp.revalo_loyers year
  let ass := indexe b.charges.assurance hyp.idx_assurance year
  let copro := indexe b.charges.copro hyp.idx_copro year
  let taxe := indexe b.charges.taxe_fonciere hyp.idx_taxe year
  let assu_empr := indexe b.charges.assurance_emprunteur hyp.idx_assu_empr year
  let autres := indexe b.charges.autres hyp.idx_autres year
  let charges_tot := ass + copro + assu_empr + autres
  let interets := if (year : ℤ) ≤ b.duree then interetsParAn b.amort year else 0
  loy - charges_tot - taxe - interets

/-- The list stored in `resultats_cashflow` under key `nom`: the dict is
keyed by property name, and every property whose name equals `nom` appends
its whole year series to the same list, in list order (lines 293, 329). -/
def serieCashflow (biens : List Bien) (hyp : HypScenario) (nom : String) : List ℚ :=
  (biens.filter fun b => b.nom == nom).flatMap fun b =>
    (annees hyp).map fun y => cashflowOfYear b hyp y

/-- The list stored in `resultats_imposable` under key `nom` (lines 294, 326). -/
def serieImposable (biens : List Bien) (hyp : HypScenario) (nom : String) : List ℚ :=
  (biens.filter fun b => b.nom == nom).flatMap fun b =>
    (annees hyp).map fun y => imposableOfYear b hyp y

/-- `total_cashflow[i] = sum(resultats_cashflow[b["nom"]][i] for b in biens)`
(line 333). The index `i` is always in range (each key's list holds at
least one full horizon), so the `getD` default is never taken. -/
def total_cashflow (biens : List Bien) (hyp : HypScenario) (i : ℕ) : ℚ :=
  (biens.map fun b => (serieCashflow biens hyp b.nom).getD i 0).sum

/-- `total_imposable[i]` (line 334). -/
def total_imposable (biens : List Bien) (hyp : HypScenario) (i : ℕ) : ℚ :=
  (biens.map fun b => (serieImposable biens hyp b.nom).getD i 0).sum

/-- `impots[i] = max(total_imposable[i], 0) * hyp.tmi` (line 337). -/
def impots (biens : List Bien) (hyp : HypScenario) (i : ℕ) : ℚ :=
  max (total_imposable biens hyp i) 0 * hyp.tmi

/-- `ps[i] = max(total_imposable[i], 0) * hyp.ps` (line 338). -/
def prelevSociaux (biens : List Bien) (hyp : HypScenario) (i : ℕ) : ℚ :=
  max (total_imposable biens hyp i) 0 * hyp.ps

/-- `cf_after_tax = total_cashflow - impots - ps` (line 339). -/
def cf_after_tax (biens : List Bien) (hyp : HypScenario) (i : ℕ) : ℚ :=
  total_cashflow biens hyp i - impots biens hyp i - prelevSociaux biens hyp i

/-- The full result of `_project_with_scenario`, bundled: year list,
per-name series maps, and the aggregate series as functions of the
(0-based) year index. -/
structure ProjectionResult where
  annees : List ℕ
  resultats_cashflow : String → List ℚ
  resultats_imposable : String → List ℚ
  total_cashflow : ℕ → ℚ
  total_imposable : ℕ → ℚ
  impots : ℕ → ℚ
  ps : ℕ → ℚ
  cf_after_tax : ℕ → ℚ

/-- `_project_with_scenario(hyp)` on the property list `biens`. -/
def projectWithScenario (biens : List Bien) (hyp : HypScenario) : ProjectionResult where
  annees := annees hyp
  resultats_cashflow := serieCashflow biens hyp
  resultats_imposable := serieImposable biens hyp
  total_cashflow := total_cashflow biens hyp
  total_imposable := total_imposable biens hyp
  impots := impots biens hyp
  ps := prelevSociaux biens hyp
  cf_after_tax := cf_after_tax biens hyp

/-- The balance after `j` months of the schedule recurrence, starting
from `capital`: `bal 0 = capital`,
`bal (j+1) = max 0 (bal j - max (m - bal j * r) 0)`. -/
def balanceAfter (capital r m : ℚ) : ℕ → ℚ
  | 0 => capital
  | j + 1 =>
    max 0 (balanceAfter capital r m j - max (m - balanceAfter capital r m j * r) 0)

/-- The row appended at 0-based month `j` when the balance entering the
month is `b` (abbreviates the loop body of `amortAux` at `i = j + 1`). -/
def mkRow (r m : ℚ) (j : ℕ) (b : ℚ) : Row where
  month_index := j + 1
  year := j / 12 + 1
  month := j % 12 + 1
  payment := m
  interest := b * r
  principal := max (m - b * r) 0
  balance := max 0 (b - max (m - b * r) 0)

lemma balanceAfter_one_step (c r m : ℚ) :
    ∀ t, balanceAfter (max 0 (c - max (m - c * r) 0)) r m t = balanceAfter c r m (t + 1)
  | 0 => rfl
  | t + 1 => by
    rw [balanceAfter, balanceAfter_one_step c r m t]
    rfl

lemma amortAux_eq (r m : ℚ) :
    ∀ (k j : ℕ) (b : ℚ),
      amortAux r m k (j + 1) b =
        (List.range k).map fun t => mkRow r m (j + t) (balanceAfter b r m t)
  | 0, _, _ => by simp [amortAux]
  | k + 1, j, b => by
    rw [List.range_succ_eq_map, List.map_cons, List.map_map]
    simp only [amortAux]
    congr 1
    rw [amortAux_eq r m k (j + 1)]
    refine List.map_congr_left fun t _ => ?_
    simp only [Function.comp_apply]
    rw [balanceAfter_one_step]
    have hjt : j + 1 + t = j + Nat.succ t := by omega
    rw [hjt]

lemma tableau_amortissement_nonpos (capital taux : ℚ) (duree : ℤ)
    (h : duree * 12 ≤ 0) : tableau_amortissement capital taux duree = [] := by
  rw [tableau_amortissement]
  simp [h]

lemma tableau_amortissement_pos (capital taux : ℚ) (duree : ℤ) (h : 0 < duree * 12) :
    tableau_amortissement capital taux duree =
      (List.range (duree * 12).toNat).map fun t =>
        mkRow (taux / 12) (mensualite_credit capital taux duree) t
          (balanceAfter capital (taux / 12) (mensualite_credit capital taux duree) t) := by
  rw [tableau_amortissement]
  simp only [not_le.mpr h, if_false]
  simpa using amortAux_eq (taux / 12) (mensualite_credit capital taux duree)
    (duree * 12).toNat 0 capital

/-- C1: `mensualite_credit` returns `0` when `n = duree*12 <= 0`; returns
`capital / n` when `|taux/12|` is below `1e-12`; and otherwise returns
`capital * r / (1 - (1+r)^-n)` with `r = taux/12` and `n = duree*12`. -/
theorem C1_mensualite_cases (capital taux : ℚ) (duree : ℤ) :
    (duree * 12 ≤ 0 → mensualite_credit capital taux duree = 0) ∧
    (0 < duree * 12 → |taux / 12| < 1 / 10 ^ 12 →
      mensualite_credit capital taux duree = capital / ((duree * 12 : ℤ) : ℚ)) ∧
    (0 < duree * 12 → 1 / 10 ^ 12 ≤ |taux / 12| →
      mensualite_credit capital taux duree =
        capital * (taux / 12) / (1 - (1 + taux / 12) ^ (-(duree * 12)))) := by
  refine ⟨fun h => ?_, fun h1 h2 => ?_, fun h1 h2 => ?_⟩ <;>
    simp only [mensualite_credit]
  · rw [if_pos h]
  · rw [if_neg (not_le.mpr h1), if_pos h2]
  · rw [if_neg (not_le.mpr h1), if_neg (not_lt.mpr h2), mul_div_assoc]

/-- Witness for C1 at the three branches: zero duration; zero rate over
one year; 3% over twenty years. -/
theorem C1_mensualite_cases_witness :
    mensualite_credit 100 (3 / 100) 0 = 0 ∧
    mensualite_credit 120 0 1 = 120 / (((1 : ℤ) * 12 : ℤ) : ℚ) ∧
    mensualite_credit 100 (3 / 100) 20 =
      100 * ((3 / 100) / 12) / (1 - (1 + (3 / 100) / 12) ^ (-((20 : ℤ) * 12))) :=
  ⟨(C1_mensualite_cases 100 (3 / 100) 0).1 (by decide),
   (C1_mensualite_cases 120 0 1).2.1 (by decide) (by norm_num),
   (C1_mensualite_cases 100 (3 / 100) 20).2.2 (by decide)
     (by rw [abs_of_nonneg (by norm_num : (0 : ℚ) ≤ 3 / 100 / 12)]; norm_num)⟩

/-- C2: `tableau_amortissement` is empty for `n = duree*12 <= 0`, and
otherwise consists of exactly `n` rows following the recurrence from
`balance = capital`: row `j` (0-based) has `month_index = j+1`,
`year = j/12+1`, `month = j%12+1`, `payment = m`, `interest = bal_j * r`,
`principal = max (m - interest) 0`, `balance = bal_(j+1)`. -/
theorem C2_tableau_recurrence (capital taux : ℚ) (duree : ℤ) :
    (duree * 12 ≤ 0 → tableau_amortissement capital taux duree = []) ∧
    (0 < duree * 12 →
      (tableau_amortissement capital taux duree).length = (duree * 12).toNat ∧
      ∀ j, j < (duree * 12).toNat →
        (tableau_amortissement capital taux duree).getD j default =
          { month_index := j + 1, year := j / 12 + 1, month := j % 12 + 1,
            payment := mensualite_credit capital taux duree,
            interest :=
              balanceAfter capital (taux / 12) (mensualite_credit capital taux duree) j *
                (taux / 12),
            principal :=
              max (mensualite_credit capital taux duree -
                balanceAfter capital (taux / 12) (mensualite_credit capital taux duree) j *
                  (taux / 12)) 0,
            balance :=
              balanceAfter capital (taux / 12) (mensualite_credit capital taux duree)
                (j + 1) }) := by
  refine ⟨tableau_amortissement_nonpos capital taux duree, fun h => ?_⟩
  rw [tableau_amortissement_pos capital taux duree h]
  refine ⟨by simp, fun j hj => ?_⟩
  rw [List.getD_eq_getElem _ _ (by simpa using hj)]
  simp [mkRow, balanceAfter]

/-- Witness for C2: empty schedule at zero duration; length and first row
of the 12-month zero-rate schedule. -/
theorem C2_tableau_recurrence_witness :
    tableau_amortissement 100 (3 / 100) 0 = [] ∧
    (tableau_amortissement 120 0 1).length = ((1 : ℤ) * 12).toNat ∧
    (tableau_amortissement 120 0 1).getD 0 default =
      { month_index := 0 + 1, year := 0 / 12 + 1, month := 0 % 12 + 1,
        payment := mensualite_credit 120 0 1,
        interest := balanceAfter 120 (0 / 12) (mensualite_credit 120 0 1) 0 * (0 / 12),
        principal :=
          max (mensualite_credit 120 0 1 -
            balanceAfter 120 (0 / 12) (mensualite_credit 120 0 1) 0 * (0 / 12)) 0,
        balance := balanceAfter 120 (0 / 12) (mensualite_credit 120 0 1) (0 + 1) } :=
  ⟨(C2_tableau_recurrence 100 (3 / 100) 0).1 (by decide),
   ((C2_tableau_recurrence 120 0 1).2 (by decide)).1,
   ((C2_tableau_recurrence 120 0 1).2 (by decide)).2 0 (by decide)⟩

/-- The annuity payment with the negative power cleared:
`capital * r * (1+r)^N / ((1+r)^N - 1)`. -/
def annuityM (capital r : ℚ) (N : ℕ) : ℚ :=
  capital * r * (1 + r) ^ N / ((1 + r) ^ N - 1)

/-- Closed form of the running balance in the annuity case:
after `t` months, `balance = capital * (q^N - q^t) / (q^N - 1)`, `q = 1+r`. -/
def closedBalance (capital q : ℚ) (N t : ℕ) : ℚ :=
  capital * (q ^ N - q ^ t) / (q ^ N - 1)

lemma qpow_den_pos {r : ℚ} (hr : 0 < r) {N : ℕ} (hN : 1 ≤ N) :
    0 < (1 + r) ^ N - 1 := by
  have h1 : (1 : ℚ) < (1 + r) ^ N := one_lt_pow₀ (by linarith) (by omega)
  linarith

lemma closedBalance_zero_eq (capital r : ℚ) (N : ℕ) (hr : 0 < r) (hN : 1 ≤ N) :
    closedBalance capital (1 + r) N 0 = capital := by
  have hden := qpow_den_pos hr hN
  rw [closedBalance, pow_zero, mul_div_assoc, div_self hden.ne', mul_one]

lemma closedBalance_last (capital q : ℚ) (N : ℕ) :
    closedBalance capital q N N = 0 := by
  rw [closedBalance]
  simp

lemma closedBalance_pay_sub (capital r : ℚ) (N t : ℕ) (hr : 0 < r) (hN : 1 ≤ N) :
    annuityM capital r N - closedBalance capital (1 + r) N t * r =
      capital * r * (1 + r) ^ t / ((1 + r) ^ N - 1) := by
  have hden := (qpow_den_pos hr hN).ne'
  rw [annuityM, closedBalance]
  field_simp
  ring

lemma closedBalance_step (capital r : ℚ) (N t : ℕ) (hr : 0 < r) (hN : 1 ≤ N) :
    closedBalance capital (1 + r) N t -
      (annuityM capital r N - closedBalance capital (1 + r) N t * r) =
      closedBalance capital (1 + r) N (t + 1) := by
  have hden := (qpow_den_pos hr hN).ne'
  rw [annuityM, closedBalance, closedBalance]
  field_simp
  ring

lemma closedBalance_anti (capital r : ℚ) (N : ℕ) (hC : 0 ≤ capital) (hr : 0 < r)
    (hN : 1 ≤ N) {s t : ℕ} (hst : s ≤ t) :
    closedBalance capital (1 + r) N t ≤ closedBalance capital (1 + r) N s := by
  have hden := qpow_den_pos hr hN
  have hpow : (1 + r) ^ s ≤ (1 + r) ^ t := pow_le_pow_right₀ (by linarith) hst
  rw [closedBalance, closedBalance]
  exact (div_le_div_iff_of_pos_right hden).mpr
    (mul_le_mul_of_nonneg_left (by linarith) hC)

lemma closedBalance_nonneg (capital r : ℚ) (N : ℕ) (hC : 0 ≤ capital) (hr : 0 < r)
    (hN : 1 ≤ N) {t : ℕ} (ht : t ≤ N) :
    0 ≤ closedBalance capital (1 + r) N t := by
  have h := closedBalance_anti capital r N hC hr hN ht
  rwa [closedBalance_last] at h

lemma pay_sub_nonneg (capital r : ℚ) (N t : ℕ) (hC : 0 ≤ capital) (hr : 0 < r)
    (hN : 1 ≤ N) :
    0 ≤ annuityM capital r N - closedBalance capital (1 + r) N t * r := by
  rw [closedBalance_pay_sub capital r N t hr hN]
  exact div_nonneg
    (mul_nonneg (mul_nonneg hC hr.le) (pow_nonneg (by linarith) t))
    (qpow_den_pos hr hN).le

/-- Under the annuity branch, the recurrence balance coincides with the
closed form, and in particular the clamps in the recurrence never bind. -/
lemma balanceAfter_eq_closed (capital r : ℚ) (N : ℕ) (hC : 0 < capital) (hr : 0 < r)
    (hN : 1 ≤ N) :
    ∀ t, t ≤ N →
      balanceAfter capital r (annuityM capital r N) t = closedBalance capital (1 + r) N t
  | 0, _ => by
    rw [balanceAfter, closedBalance_zero_eq capital r N hr hN]
  | t + 1, h => by
    rw [balanceAfter, balanceAfter_eq_closed capital r N hC hr hN t (by omega),
      max_eq_left (pay_sub_nonneg capital r N t hC.le hr hN),
      closedBalance_step capital r N t hr hN]
    exact max_eq_right (closedBalance_nonneg capital r N hC.le hr hN h)

/-- In the annuity branch (`n > 0`, `|r| ≥ 1e-12` forced by `r ≥ 1e-12`),
`mensualite_credit` equals the cleared annuity payment `annuityM`. -/
lemma mensualite_eq_annuity (capital taux : ℚ) (duree : ℤ) (hdur : 0 < duree)
    (hrate : 1 / 10 ^ 12 ≤ taux / 12) :
    mensualite_credit capital taux duree =
      annuityM capital (taux / 12) (duree * 12).toNat := by
  have hr : 0 < taux / 12 := lt_of_lt_of_le (by norm_num) hrate
  have hn : 0 < duree * 12 := by positivity
  have hcast : (((duree * 12).toNat : ℤ)) = duree * 12 := Int.toNat_of_nonneg hn.le
  have hN : 1 ≤ (duree * 12).toNat := by omega
  have habs : ¬ |taux / 12| < 1 / 10 ^ 12 :=
    not_lt.mpr (le_trans hrate (le_abs_self _))
  have hqpos : (0 : ℚ) < (1 + taux / 12) ^ (duree * 12).toNat :=
    pow_pos (by linarith) _
  have hden := qpow_den_pos hr hN
  have hzpow : (1 + taux / 12) ^ (-(duree * 12)) =
      ((1 + taux / 12) ^ (duree * 12).toNat)⁻¹ := by
    rw [zpow_neg]
    congr 1
    rw [← zpow_natCast (1 + taux / 12) (duree * 12).toNat, hcast]
  have hfrac : ((1 + taux / 12) ^ (duree * 12).toNat - 1) /
        (1 + taux / 12) ^ (duree * 12).toNat =
      1 - ((1 + taux / 12) ^ (duree * 12).toNat)⁻¹ := by
    rw [sub_div, div_self hqpos.ne', one_div]
  simp only [mensualite_credit]
  rw [if_neg (not_le.mpr hn), if_neg habs, hzpow, ← hfrac]
  rw [annuityM, div_div_eq_mul_div]
  ring

lemma sum_map_range_sub (f : ℕ → ℚ) :
    ∀ n, ((List.range n).map fun t => f t - f (t + 1)).sum = f 0 - f n
  | 0 => by simp
  | n + 1 => by
    rw [List.range_succ, List.map_append, List.sum_append, sum_map_range_sub f n]
    simp only [List.map_cons, List.map_nil, List.sum_cons, List.sum_nil, add_zero]
    ring

lemma mkRow_balance_eq (capital r m : ℚ) (t : ℕ) :
    (mkRow r m t (balanceAfter capital r m t)).balance = balanceAfter capital r m (t + 1) :=
  rfl

lemma balanceAfter_nonneg (capital r m : ℚ) (hcap : 0 ≤ capital) :
    ∀ t, 0 ≤ balanceAfter capital r m t
  | 0 => hcap
  | _ + 1 => le_max_left 0 _

/-- In any run of the schedule recurrence with nonnegative payment and
positive rate, the balance decreases by strictly less than the payment
each month: `capital - t*m ≤ bal t`. -/
lemma balanceAfter_ge_linear (capital r m : ℚ) (hcap : 0 ≤ capital) (hr : 0 < r)
    (hm : 0 ≤ m) :
    ∀ t : ℕ, capital - (t : ℚ) * m ≤ balanceAfter capital r m t
  | 0 => by simp [balanceAfter]
  | t + 1 => by
    have h1 := balanceAfter_ge_linear capital r m hcap hr hm t
    have hb := balanceAfter_nonneg capital r m hcap t
    have hdec : max (m - balanceAfter capital r m t * r) 0 ≤ m :=
      max_le (by nlinarith) hm
    have h2 : capital - ((t : ℚ) + 1) * m ≤
        balanceAfter capital r m t - max (m - balanceAfter capital r m t * r) 0 := by
      linarith
    rw [balanceAfter]
    push_cast
    exact le_trans h2 (le_max_right _ _)

/-- With the straight-line payment `capital / n` but a positive rate, the
balance after `n` months stays strictly positive: the interest charged
each month is never repaid by the linear principal plan. -/
lemma balanceAfter_straightline_pos (capital r : ℚ) (n : ℕ) (hcap : 0 < capital)
    (hr : 0 < r) (hn : 1 ≤ n) :
    0 < balanceAfter capital r (capital / (n : ℚ)) n := by
  obtain ⟨k, rfl⟩ : ∃ k, n = k + 1 := ⟨n - 1, by omega⟩
  have hk1 : ((k : ℚ) + 1) ≠ 0 := by positivity
  have hm0 : 0 < capital / ((k + 1 : ℕ) : ℚ) := by positivity
  have hlin := balanceAfter_ge_linear capital r (capital / ((k + 1 : ℕ) : ℚ))
    hcap.le hr hm0.le k
  have hbal : capital / ((k + 1 : ℕ) : ℚ) ≤
      balanceAfter capital r (capital / ((k + 1 : ℕ) : ℚ)) k := by
    have hcap_eq : capital - (k : ℚ) * (capital / ((k + 1 : ℕ) : ℚ)) =
        capital / ((k + 1 : ℕ) : ℚ) := by
      push_cast
      field_simp
      ring
    linarith [hcap_eq ▸ hlin]
  rw [balanceAfter]
  have key : 0 < balanceAfter capital r (capital / ((k + 1 : ℕ) : ℚ)) k -
      max (capital / ((k + 1 : ℕ) : ℚ) -
        balanceAfter capital r (capital / ((k + 1 : ℕ) : ℚ)) k * r) 0 := by
    rcases le_or_lt (capital / ((k + 1 : ℕ) : ℚ) -
        balanceAfter capital r (capital / ((k + 1 : ℕ) : ℚ)) k * r) 0 with h | h
    · rw [max_eq_right h]
      linarith
    · rw [max_eq_left h.le]
      nlinarith
  calc (0 : ℚ) < _ := key
  _ ≤ _ := le_max_right _ _

/-- C3 (amended): for `capital > 0`, `duree > 0` and a monthly rate at or
above the code's `1e-12` epsilon (so the annuity branch is taken), every
row of the schedule satisfies `interest + principal = payment`, the
balance column is monotonically non-increasing, the final balance is
exactly `0`, and the principal column sums to exactly `capital`. -/
theorem C3_schedule_invariants (capital taux : ℚ) (duree : ℤ)
    (hcap : 0 < capital) (hdur : 0 < duree) (hrate : 1 / 10 ^ 12 ≤ taux / 12) :
    (∀ row ∈ tableau_amortissement capital taux duree,
        row.interest + row.principal = row.payment) ∧
    (∀ i j (hi : i < (tableau_amortissement capital taux duree).length)
        (hj : j < (tableau_amortissement capital taux duree).length), i ≤ j →
      ((tableau_amortissement capital taux duree).get ⟨j, hj⟩).balance ≤
        ((tableau_amortissement capital taux duree).get ⟨i, hi⟩).balance) ∧
    (tableau_amortissement capital taux duree).length = (duree * 12).toNat ∧
    ((tableau_amortissement capital taux duree).map Row.balance).getD
      ((tableau_amortissement capital taux duree).length - 1) 0 = 0 ∧
    ((tableau_amortissement capital taux duree).map Row.principal).sum = capital := by
  have hr : 0 < taux / 12 := lt_of_lt_of_le (by norm_num) hrate
  have hn : 0 < duree * 12 := by positivity
  have hN : 1 ≤ (duree * 12).toNat := by omega
  rw [tableau_amortissement_pos capital taux duree hn,
    mensualite_eq_annuity capital taux duree hdur hrate]
  have hbal : ∀ t, t ≤ (duree * 12).toNat →
      balanceAfter capital (taux / 12)
        (annuityM capital (taux / 12) (duree * 12).toNat) t =
      closedBalance capital (1 + taux / 12) (duree * 12).toNat t :=
    balanceAfter_eq_closed capital (taux / 12) (duree * 12).toNat hcap hr hN
  refine ⟨?_, ?_, by simp, ?_, ?_⟩
  · intro row hrow
    obtain ⟨t, htmem, rfl⟩ := List.mem_map.mp hrow
    have ht : t < (duree * 12).toNat := List.mem_range.mp htmem
    simp only [mkRow]
    rw [hbal t ht.le,
      max_eq_left (pay_sub_nonneg capital (taux / 12) (duree * 12).toNat t hcap.le hr hN)]
    ring
  · intro i j hi hj hij
    have hi' : i < (duree * 12).toNat := by simpa using hi
    have hj' : j < (duree * 12).toNat := by simpa using hj
    simp only [List.get_eq_getElem, List.getElem_map, List.getElem_range]
    rw [mkRow_balance_eq, mkRow_balance_eq, hbal (i + 1) (by omega), hbal (j + 1) (by omega)]
    exact closedBalance_anti capital (taux / 12) (duree * 12).toNat hcap.le hr hN
      (by omega)
  · have hlt : (duree * 12).toNat - 1 < (duree * 12).toNat := by omega
    rw [List.map_map]
    rw [List.getD_eq_getElem _ _ (by simpa using hlt)]
    simp only [List.length_map, List.length_range, List.getElem_map, List.getElem_range,
      Function.comp_apply]
    rw [mkRow_balance_eq, hbal ((duree * 12).toNat - 1 + 1) (by omega)]
    have heq : (duree * 12).toNat - 1 + 1 = (duree * 12).toNat := by omega
    rw [heq, closedBalance_last]
  · rw [List.map_map]
    rw [List.map_congr_left (g := fun t =>
        closedBalance capital (1 + taux / 12) (duree * 12).toNat t -
          closedBalance capital (1 + taux / 12) (duree * 12).toNat (t + 1))
      (fun t htmem => ?_)]
    · rw [sum_map_range_sub, closedBalance_zero_eq capital (taux / 12) _ hr hN,
        closedBalance_last, sub_zero]
    · have ht : t < (duree * 12).toNat := List.mem_range.mp htmem
      simp only [Function.comp_apply, mkRow]
      rw [hbal t ht.le,
        max_eq_left (pay_sub_nonneg capital (taux / 12) (duree * 12).toNat t hcap.le hr hN)]
      have hstep := closedBalance_step capital (taux / 12) (duree * 12).toNat t hr hN
      linarith

/-- Witness for C3 at `capital = 1200`, `taux = 12%`, `duree = 1`. -/
theorem C3_schedule_invariants_witness :
    (∀ row ∈ tableau_amortissement 1200 (12 / 100) 1,
        row.interest + row.principal = row.payment) ∧
    (∀ i j (hi : i < (tableau_amortissement 1200 (12 / 100) 1).length)
        (hj : j < (tableau_amortissement 1200 (12 / 100) 1).length), i ≤ j →
      ((tableau_amortissement 1200 (12 / 100) 1).get ⟨j, hj⟩).balance ≤
        ((tableau_amortissement 1200 (12 / 100) 1).get ⟨i, hi⟩).balance) ∧
    (tableau_amortissement 1200 (12 / 100) 1).length = ((1 : ℤ) * 12).toNat ∧
    ((tableau_amortissement 1200 (12 / 100) 1).map Row.balance).getD
      ((tableau_amortissement 1200 (12 / 100) 1).length - 1) 0 = 0 ∧
    ((tableau_amortissement 1200 (12 / 100) 1).map Row.principal).sum = 1200 :=
  C3_schedule_invariants 1200 (12 / 100) 1 (by norm_num) (by norm_num) (by norm_num)

/-- C3 counterexample: at `capital = 1`, `taux = 12e-13` (a positive rate
whose monthly rate `1e-13` is below the `1e-12` epsilon) and one year,
the code pays straight-line while still charging interest, and the final
balance of the schedule is NOT `0`, contradicting the claim for arbitrary
positive rates. -/
theorem C3_claim_fails_below_epsilon :
    ((tableau_amortissement 1 (12 / 10 ^ 13) 1).map Row.balance).getD
      ((tableau_amortissement 1 (12 / 10 ^ 13) 1).length - 1) 0 ≠ 0 := by
  have hn : (0 : ℤ) < 1 * 12 := by decide
  have hm : mensualite_credit 1 (12 / 10 ^ 13) 1 = 1 / (((1 : ℤ) * 12 : ℤ) : ℚ) := by
    simp only [mensualite_credit]
    rw [if_neg (by decide), if_pos ?_]
    rw [abs_of_nonneg (by norm_num : (0 : ℚ) ≤ 12 / 10 ^ 13 / 12)]
    norm_num
  rw [tableau_amortissement_pos 1 (12 / 10 ^ 13) 1 hn, hm, List.map_map]
  have hlt : ((1 : ℤ) * 12).toNat - 1 < ((1 : ℤ) * 12).toNat := by decide
  rw [List.getD_eq_getElem _ _ (by simp)]
  simp only [List.length_map, List.length_range, List.getElem_map, List.getElem_range,
    Function.comp_apply]
  rw [mkRow_balance_eq]
  have h12 : ((1 : ℤ) * 12).toNat - 1 + 1 = 12 := by decide
  rw [h12]
  have hcast : (1 : ℚ) / (((1 : ℤ) * 12 : ℤ) : ℚ) = 1 / ((12 : ℕ) : ℚ) := by norm_num
  rw [hcast]
  exact (balanceAfter_straightline_pos 1 (12 / 10 ^ 13 / 12) 12 one_pos
    (by norm_num) (by norm_num)).ne'

/-- C8: for a zero annual rate and positive duration, the payment is
exactly `capital / (duree*12)` and every schedule row has zero interest. -/
theorem C8_zero_rate (capital : ℚ) (duree : ℤ) (h : 0 < duree) :
    mensualite_credit capital 0 duree = capital / ((duree * 12 : ℤ) : ℚ) ∧
    ∀ row ∈ tableau_amortissement capital 0 duree, row.interest = 0 := by
  have h12 : 0 < duree * 12 := by positivity
  constructor
  · rw [mensualite_credit]
    simp [not_le.mpr h12]
  · intro row hrow
    rw [tableau_amortissement_pos capital 0 duree h12] at hrow
    obtain ⟨t, _, rfl⟩ := List.mem_map.mp hrow
    simp [mkRow]

/-- Witness for C8 at `capital = 120`, `duree = 1`. -/
theorem C8_zero_rate_witness :
    mensualite_credit 120 0 1 = 120 / (((1 : ℤ) * 12 : ℤ) : ℚ) ∧
    ∀ row ∈ tableau_amortissement 120 0 1, row.interest = 0 :=
  C8_zero_rate 120 1 (by decide)

/-! Concrete fixtures used by witnesses and counterexamples. -/

def chargesZero : Charges := ⟨0, 0, 0, 0, 0⟩

/-- A loan-free property named "X" with annual rent 1. -/
def bienX1 : Bien :=
  { nom := "X", prix := 0, emprunt := 0, duree := 0, taux := 0, loyer := 1,
    charges := chargesZero }

/-- A second, distinct property that shares the name "X", rent 2. -/
def bienX2 : Bien :=
  { nom := "X", prix := 0, emprunt := 0, duree := 0, taux := 0, loyer := 2,
    charges := chargesZero }

/-- A property with no rent and a 100 property tax: negative taxable income. -/
def bienTaxe : Bien :=
  { nom := "T", prix := 0, emprunt := 0, duree := 0, taux := 0, loyer := 0,
    charges := ⟨0, 100, 0, 0, 0⟩ }

/-- A one-year scenario, all indexations zero, default tax rates. -/
def hypUnit : HypScenario :=
  { revalo_loyers := 0, idx_assurance := 0, idx_copro := 0, idx_taxe := 0,
    idx_assu_empr := 0, idx_autres := 0, tmi := 0, ps := 0, duree_projection := 1 }

/-- A one-year scenario with the source's default tax rates (30%, 17.2%). -/
def hypTax : HypScenario :=
  { revalo_loyers := 0, idx_assurance := 0, idx_copro := 0, idx_taxe := 0,
    idx_assu_empr := 0, idx_autres := 0, tmi := 3 / 10, ps := 172 / 1000,
    duree_projection := 1 }

lemma annees_length (hyp : HypScenario) :
    (annees hyp).length = hyp.duree_projection.toNat := by
  simp [annees]

lemma map_annees_getD (hyp : HypScenario) (f : ℕ → ℚ) {i : ℕ}
    (hi : i < hyp.duree_projection.toNat) :
    ((annees hyp).map f).getD i 0 = f (i + 1) := by
  rw [List.getD_eq_getElem _ _ (by simpa [annees] using hi)]
  simp [annees]

lemma filter_nom_of_nodup {biens : List Bien} (hnd : (biens.map Bien.nom).Nodup)
    {b : Bien} (hb : b ∈ biens) :
    biens.filter (fun x => x.nom == b.nom) = [b] := by
  induction biens with
  | nil => cases hb
  | cons c rest ih =>
    rw [List.map_cons, List.nodup_cons] at hnd
    rcases List.mem_cons.mp hb with rfl | hbr
    · rw [List.filter_cons_of_pos (by simp)]
      have hrest : rest.filter (fun x => x.nom == b.nom) = [] := by
        rw [List.filter_eq_nil_iff]
        intro x hx
        simp only [beq_iff_eq]
        intro heq
        exact hnd.1 (heq ▸ List.mem_map_of_mem Bien.nom hx)
      rw [hrest]
    · have hne : c.nom ≠ b.nom := fun heq =>
        hnd.1 (heq ▸ List.mem_map_of_mem Bien.nom hbr)
      rw [List.filter_cons_of_neg (by simp [hne]), ih hnd.2 hbr]

lemma serieCashflow_of_nodup {biens : List Bien} (hnd : (biens.map Bien.nom).Nodup)
    {b : Bien} (hb : b ∈ biens) (hyp : HypScenario) :
    serieCashflow biens hyp b.nom = (annees hyp).map fun y => cashflowOfYear b hyp y := by
  rw [serieCashflow, filter_nom_of_nodup hnd hb]
  simp

lemma serieImposable_of_nodup {biens : List Bien} (hnd : (biens.map Bien.nom).Nodup)
    {b : Bien} (hb : b ∈ biens) (hyp : HypScenario) :
    serieImposable biens hyp b.nom = (annees hyp).map fun y => imposableOfYear b hyp y := by
  rw [serieImposable, filter_nom_of_nodup hnd hb]
  simp

lemma total_cashflow_of_nodup (biens : List Bien) (hyp : HypScenario)
    (hnd : (biens.map Bien.nom).Nodup) {i : ℕ} (hi : i < hyp.duree_projection.toNat) :
    total_cashflow biens hyp i = (biens.map fun b => cashflowOfYear b hyp (i + 1)).sum := by
  rw [total_cashflow]
  congr 1
  refine List.map_congr_left fun b hb => ?_
  rw [serieCashflow_of_nodup hnd hb hyp, map_annees_getD hyp _ hi]

lemma total_imposable_of_nodup (biens : List Bien) (hyp : HypScenario)
    (hnd : (biens.map Bien.nom).Nodup) {i : ℕ} (hi : i < hyp.duree_projection.toNat) :
    total_imposable biens hyp i = (biens.map fun b => imposableOfYear b hyp (i + 1)).sum := by
  rw [total_imposable]
  congr 1
  refine List.map_congr_left fun b hb => ?_
  rw [serieImposable_of_nodup hnd hb hyp, map_annees_getD hyp _ hi]

/-- C4: the per-property series have the horizon's length, and at year
`y` (1-based) the stored cash flow and taxable income follow the spec's
formulas: each base compounded at its own indexation rate, annuity
`monthlyPayment*12` and interest summed from the amortization rows of
year `y` while the loan runs, both `0` afterwards. -/
theorem C4_per_property_series (b : Bien) (hyp : HypScenario) (y : ℕ)
    (hy1 : 1 ≤ y) (hy2 : y ≤ hyp.duree_projection.toNat) :
    (serieCashflow [b] hyp b.nom).length = hyp.duree_projection.toNat ∧
    (serieImposable [b] hyp b.nom).length = hyp.duree_projection.toNat ∧
    (serieCashflow [b] hyp b.nom).getD (y - 1) 0 =
      b.loyer * (1 + hyp.revalo_loyers) ^ (y - 1) -
        (b.charges.assurance * (1 + hyp.idx_assurance) ^ (y - 1) +
          b.charges.copro * (1 + hyp.idx_copro) ^ (y - 1) +
          b.charges.assurance_emprunteur * (1 + hyp.idx_assu_empr) ^ (y - 1) +
          b.charges.autres * (1 + hyp.idx_autres) ^ (y - 1)) -
        b.charges.taxe_fonciere * (1 + hyp.idx_taxe) ^ (y - 1) -
        (if (y : ℤ) ≤ b.duree then mensualite_credit b.emprunt b.taux b.duree * 12
         else 0) ∧
    (serieImposable [b] hyp b.nom).getD (y - 1) 0 =
      b.loyer * (1 + hyp.revalo_loyers) ^ (y - 1) -
        (b.charges.assurance * (1 + hyp.idx_assurance) ^ (y - 1) +
          b.charges.copro * (1 + hyp.idx_copro) ^ (y - 1) +
          b.charges.assurance_emprunteur * (1 + hyp.idx_assu_empr) ^ (y - 1) +
          b.charges.autres * (1 + hyp.idx_autres) ^ (y - 1)) -
        b.charges.taxe_fonciere * (1 + hyp.idx_taxe) ^ (y - 1) -
        (if (y : ℤ) ≤ b.duree then
          (((tableau_amortissement b.emprunt b.taux b.duree).filter
              fun row => row.year == y).map Row.interest).sum
         else 0) := by
  have hnd : ([b].map Bien.nom).Nodup := by simp
  have hb : b ∈ [b] := by simp
  have hsc := serieCashflow_of_nodup hnd hb hyp
  have hsi := serieImposable_of_nodup hnd hb hyp
  have hy' : y - 1 < hyp.duree_projection.toNat := by omega
  have hy'' : y - 1 + 1 = y := by omega
  refine ⟨by rw [hsc, List.length_map, annees_length],
    by rw [hsi, List.length_map, annees_length], ?_, ?_⟩
  · rw [hsc, map_annees_getD hyp _ hy', hy'']
    simp only [cashflowOfYear, indexe, Bien.mensualite]
  · rw [hsi, map_annees_getD hyp _ hy', hy'']
    simp only [imposableOfYear, indexe, Bien.amort, interetsParAn]

/-- Witness for C4 at the rent-only property `bienX1`, one-year scenario,
year 1. -/
theorem C4_per_property_series_witness :
    (serieCashflow [bienX1] hypUnit bienX1.nom).length =
      hypUnit.duree_projection.toNat ∧
    (serieImposable [bienX1] hypUnit bienX1.nom).length =
      hypUnit.duree_projection.toNat ∧
    (serieCashflow [bienX1] hypUnit bienX1.nom).getD (1 - 1) 0 =
      bienX1.loyer * (1 + hypUnit.revalo_loyers) ^ (1 - 1) -
        (bienX1.charges.assurance * (1 + hypUnit.idx_assurance) ^ (1 - 1) +
          bienX1.charges.copro * (1 + hypUnit.idx_copro) ^ (1 - 1) +
          bienX1.charges.assurance_emprunteur * (1 + hypUnit.idx_assu_empr) ^ (1 - 1) +
          bienX1.charges.autres * (1 + hypUnit.idx_autres) ^ (1 - 1)) -
        bienX1.charges.taxe_fonciere * (1 + hypUnit.idx_taxe) ^ (1 - 1) -
        (if ((1 : ℕ) : ℤ) ≤ bienX1.duree then
          mensualite_credit bienX1.emprunt bienX1.taux bienX1.duree * 12
         else 0) ∧
    (serieImposable [bienX1] hypUnit bienX1.nom).getD (1 - 1) 0 =
      bienX1.loyer * (1 + hypUnit.revalo_loyers) ^ (1 - 1) -
        (bienX1.charges.assurance * (1 + hypUnit.idx_assurance) ^ (1 - 1) +
          bienX1.charges.copro * (1 + hypUnit.idx_copro) ^ (1 - 1) +
          bienX1.charges.assurance_emprunteur * (1 + hypUnit.idx_assu_empr) ^ (1 - 1) +
          bienX1.charges.autres * (1 + hypUnit.idx_autres) ^ (1 - 1)) -
        bienX1.charges.taxe_fonciere * (1 + hypUnit.idx_taxe) ^ (1 - 1) -
        (if ((1 : ℕ) : ℤ) ≤ bienX1.duree then
          (((tableau_amortissement bienX1.emprunt bienX1.taux bienX1.duree).filter
              fun row => row.year == 1).map Row.interest).sum
         else 0) :=
  C4_per_property_series bienX1 hypUnit 1 (by decide) (by decide)

/-- C5: tax and social levy are computed on the aggregate taxable income
clamped at zero, after-tax cash flow subtracts both, and a negative
aggregate taxable income yields exactly zero tax and levy. -/
theorem C5_tax_clamped (biens : List Bien) (hyp : HypScenario) (i : ℕ) :
    impots biens hyp i = max (total_imposable biens hyp i) 0 * hyp.tmi ∧
    prelevSociaux biens hyp i = max (total_imposable biens hyp i) 0 * hyp.ps ∧
    cf_after_tax biens hyp i =
      total_cashflow biens hyp i - impots biens hyp i - prelevSociaux biens hyp i ∧
    (total_imposable biens hyp i < 0 →
      impots biens hyp i = 0 ∧ prelevSociaux biens hyp i = 0) := by
  refine ⟨rfl, rfl, rfl, fun hneg => ⟨?_, ?_⟩⟩
  · rw [impots, max_eq_right hneg.le, zero_mul]
  · rw [prelevSociaux, max_eq_right hneg.le, zero_mul]

/-- Witness for C5 on a portfolio with negative taxable income (property
tax 100, no rent) under the default 30% / 17.2% rates. -/
theorem C5_tax_clamped_witness :
    impots [bienTaxe] hypTax 0 = max (total_imposable [bienTaxe] hypTax 0) 0 * hypTax.tmi ∧
    prelevSociaux [bienTaxe] hypTax 0 =
      max (total_imposable [bienTaxe] hypTax 0) 0 * hypTax.ps ∧
    cf_after_tax [bienTaxe] hypTax 0 =
      total_cashflow [bienTaxe] hypTax 0 - impots [bienTaxe] hypTax 0 -
        prelevSociaux [bienTaxe] hypTax 0 ∧
    (impots [bienTaxe] hypTax 0 = 0 ∧ prelevSociaux [bienTaxe] hypTax 0 = 0) := by
  have hneg : total_imposable [bienTaxe] hypTax 0 < 0 := by
    norm_num [total_imposable, serieImposable, imposableOfYear, indexe, annees, hypTax,
      bienTaxe, List.filter, List.range_succ, List.range_zero]
  have h := C5_tax_clamped [bienTaxe] hypTax 0
  exact ⟨h.1, h.2.1, h.2.2.1, h.2.2.2 hneg⟩

/-- C6 (amended): the aggregate totals equal the per-property sums for
every year of the horizon, for any portfolio — including the empty one,
whose totals are zero — PROVIDED all property names are distinct. -/
theorem C6_aggregation_of_distinct_names (biens : List Bien) (hyp : HypScenario)
    (hnd : (biens.map Bien.nom).Nodup) (i : ℕ) (hi : i < hyp.duree_projection.toNat) :
    total_cashflow biens hyp i = (biens.map fun b => cashflowOfYear b hyp (i + 1)).sum ∧
    total_imposable biens hyp i =
      (biens.map fun b => imposableOfYear b hyp (i + 1)).sum ∧
    total_cashflow ([] : List Bien) hyp i = 0 ∧
    total_imposable ([] : List Bien) hyp i = 0 :=
  ⟨total_cashflow_of_nodup biens hyp hnd hi, total_imposable_of_nodup biens hyp hnd hi,
    rfl, rfl⟩

/-- Witness for C6 on the singleton portfolio. -/
theorem C6_aggregation_witness :
    total_cashflow [bienX1] hypUnit 0 =
      ([bienX1].map fun b => cashflowOfYear b hypUnit 1).sum ∧
    total_imposable [bienX1] hypUnit 0 =
      ([bienX1].map fun b => imposableOfYear b hypUnit 1).sum ∧
    total_cashflow ([] : List Bien) hypUnit 0 = 0 ∧
    total_imposable ([] : List Bien) hypUnit 0 = 0 :=
  C6_aggregation_of_distinct_names [bienX1] hypUnit (by simp) 0 (by decide)

/-- C6 counterexample: two properties sharing the name "X" (rents 1 and
2, no loan, one-year horizon): the aggregate total is 2 (the first
property's value counted twice) while the per-property sum is 3. -/
theorem C6_fails_for_duplicate_names :
    total_cashflow [bienX1, bienX2] hypUnit 0 ≠
      ([bienX1, bienX2].map fun b => cashflowOfYear b hypUnit 1).sum := by
  norm_num [total_cashflow, serieCashflow, cashflowOfYear, indexe, annees, hypUnit,
    bienX1, bienX2, chargesZero, List.filter, List.range_succ, List.range_zero]

/-- C7 (amended): compounded indexation is strictly increasing across
years for POSITIVE base amounts and positive indexation rate. -/
theorem C7_monotone_indexation (base idx : ℚ) (y1 y2 : ℕ) (hbase : 0 < base)
    (hidx : 0 < idx) (hy1 : 1 ≤ y1) (hy12 : y1 < y2) :
    indexe base idx y1 < indexe base idx y2 := by
  rw [indexe, indexe]
  exact mul_lt_mul_of_pos_left
    (pow_lt_pow_right₀ (by linarith) (by omega)) hbase

/-- Witness for C7 with base 1, rate 1%, years 1 < 2. -/
theorem C7_monotone_indexation_witness :
    indexe 1 (1 / 100) 1 < indexe 1 (1 / 100) 2 :=
  C7_monotone_indexation 1 (1 / 100) 1 2 (by norm_num) (by norm_num) (by norm_num)
    (by norm_num)

/-- C7 counterexample: with base 0 the compounded value is 0 in every
year, so it is not strictly greater at the later year. -/
theorem C7_fails_for_zero_base :
    ¬ indexe 0 (1 / 100) 1 < indexe 0 (1 / 100) 2 := by
  norm_num [indexe]

/-- C9: the projection is a pure function of the property list and the
scenario: identical inputs produce identical results (all series). -/
theorem C9_projection_deterministic (biens1 biens2 : List Bien)
    (hyp1 hyp2 : HypScenario) (hb : biens1 = biens2) (hh : hyp1 = hyp2) :
    projectWithScenario biens1 hyp1 = projectWithScenario biens2 hyp2 := by
  rw [hb, hh]

/-- Witness for C9. -/
theorem C9_projection_deterministic_witness :
    projectWithScenario [bienX1] hypUnit = projectWithScenario [bienX1] hypUnit :=
  C9_projection_deterministic [bienX1] [bienX1] hypUnit hypUnit rfl rfl

/-- C10: with two same-named properties both series append under one key
(length `2 × horizon`), aggregation reads index `i` of the merged list
once per property — double-counting the first property and ignoring the
second — and the aggregation identity holds whenever names are distinct. -/
theorem C10_duplicate_name_aliasing (b1 b2 : Bien) (hyp : HypScenario)
    (hname : b1.nom = b2.nom) :
    (serieCashflow [b1, b2] hyp b1.nom).length = 2 * hyp.duree_projection.toNat ∧
    (∀ i, i < hyp.duree_projection.toNat →
      total_cashflow [b1, b2] hyp i = 2 * cashflowOfYear b1 hyp (i + 1)) ∧
    (∀ biens : List Bien, (biens.map Bien.nom).Nodup →
      ∀ i, i < hyp.duree_projection.toNat →
        total_cashflow biens hyp i =
          (biens.map fun b => cashflowOfYear b hyp (i + 1)).sum) := by
  have hfil : ([b1, b2].filter fun x => x.nom == b1.nom) = [b1, b2] := by
    simp [List.filter, hname]
  have hser : serieCashflow [b1, b2] hyp b1.nom =
      ((annees hyp).map fun y => cashflowOfYear b1 hyp y) ++
        ((annees hyp).map fun y => cashflowOfYear b2 hyp y) := by
    rw [serieCashflow, hfil]
    simp
  refine ⟨?_, ?_, ?_⟩
  · rw [hser]
    simp [annees_length]
    ring
  · intro i hi
    have hkey : serieCashflow [b1, b2] hyp b2.nom =
        serieCashflow [b1, b2] hyp b1.nom := by rw [hname]
    rw [total_cashflow]
    simp only [List.map_cons, List.map_nil, List.sum_cons, List.sum_nil, add_zero]
    rw [hkey, hser,
      List.getD_append _ _ _ _ (by rw [List.length_map, annees_length]; omega),
      map_annees_getD hyp _ hi]
    ring
  · exact fun biens hnd i hi => total_cashflow_of_nodup biens hyp hnd hi

/-- Witness for C10 on the two same-named fixtures. -/
theorem C10_duplicate_name_aliasing_witness :
    (serieCashflow [bienX1, bienX2] hypUnit bienX1.nom).length =
      2 * hypUnit.duree_projection.toNat ∧
    (∀ i, i < hypUnit.duree_projection.toNat →
      total_cashflow [bienX1, bienX2] hypUnit i =
        2 * cashflowOfYear bienX1 hypUnit (i + 1)) ∧
    (∀ biens : List Bien, (biens.map Bien.nom).Nodup →
      ∀ i, i < hypUnit.duree_projection.toNat →
        total_cashflow biens hypUnit i =
          (biens.map fun b => cashflowOfYear b hypUnit (i + 1)).sum) :=
  C10_duplicate_name_aliasing bienX1 bienX2 hypUnit rfl

end ImmoInvest
